import Mathlib

/-!
Verification development for qkit/measure/timedomain/pulse_sequence.py.

The Python module arranges laboratory pulses into a sequence and renders the
sequence into a sampled waveform.  This file gives a shallow embedding of the
data model (Shape, Pulse, PulseSequence) and of the operations the claims are
about: Pulse.__init__, Pulse.get_envelope, Pulse.get_complex_envelope,
PulseSequence.add and PulseSequence.__call__.  Machine floats are modelled by
exact rationals; numpy arrays by lists; Python dicts by association lists;
Python sets by finite sets; reported logging errors by explicit error values.
-/

set_option maxHeartbeats 1000000

/-- A Python number as stored in a pulse attribute.  CPython distinguishes the
cached small-int object 0 from the float 0.0 under the identity operator, which
line 125 of the source (if self.iq_frequency is 0) relies on, so the embedding
keeps the int/float tag. -/
inductive PyNum
  | int (n : ℤ)
  | float (q : ℚ)
  deriving DecidableEq

/-- Numeric value of a Python number (int and float compare equal when the
values agree, as Python == does). -/
def PyNum.val : PyNum → ℚ
  | .int n => (n : ℚ)
  | .float q => q

/-- The identity test of source line 125, self.iq_frequency is 0: in CPython
this holds exactly for an int whose value is 0 (small ints are interned); it is
false for the float 0.0 even though 0.0 == 0. -/
def PyNum.isLit0 : PyNum → Bool
  | .int 0 => true
  | _ => false

/-- A Python pulse name: None, a string, or some other non-string object
(source lines 297-300 test name is None / isinstance(name, str)). -/
inductive PulseName
  | pyNone
  | str (s : String)
  | notStr
  deriving DecidableEq

/-- Enum PulseType of the source (lines 43-47). -/
inductive PulseType
  | Pulse
  | Wait
  | Readout
  deriving DecidableEq

/-- A pulse length: a fixed float, or a callable taking named parameters
(source stores either a float or a function, lines 68-72).  The declared
argument names model getargspec(length).args; the function itself is modelled
as reading the parameters from a name-to-value environment. -/
inductive PulseLength
  | fixed (d : ℚ)
  | varlen (args : List String) (f : (String → ℚ) → ℚ)

/-- The declared parameter names of a pulse length, i.e.
getargspec(pulse.length).args for a callable and nothing for a float. -/
def PulseLength.argNames : PulseLength → List String
  | .fixed _ => []
  | .varlen args _ => args

/-- A shape is a vectorized function on the normalized interval, applied
pointwise (class Shape, lines 12-23). -/
def ShapeFun : Type := ℚ → ℚ

/-- ShapeLib.rect: 1 on the half-open unit interval, 0 elsewhere
(line 34 of the source). -/
def rectShape : ShapeFun := fun x => if 0 ≤ x ∧ x < 1 then 1 else 0

/-- ShapeLib.zero: the constant-zero shape (line 33 of the source). -/
def zeroShape : ShapeFun := fun _ => 0

/-- Class Pulse (lines 50-81).  pid models CPython object identity (the is
operator): two Pulse objects are the same object iff their pid agrees. -/
structure Pulse where
  pid : ℕ
  length : PulseLength
  shape : ShapeFun
  name : PulseName
  amplitude : ℚ
  phase : ℚ
  iq_frequency : PyNum
  iq_dc_offset : ℚ × ℚ
  iq_angle : ℚ
  type : PulseType

/-- Pulse.__call__ (lines 83-94): amplitude * shape(time_fractions),
elementwise over the input array. -/
def Pulse.callOn (p : Pulse) (time_fractions : List ℚ) : List ℚ :=
  time_fractions.map (fun x => p.amplitude * p.shape x)

/-- Number of elements of np.arange(0, stop, step): ceil(stop/step) when both
stop and step are positive, otherwise zero (an empty array). -/
def arangeCount (stop step : ℚ) : ℕ :=
  if 0 < stop ∧ 0 < step then (Int.ceil (stop / step)).toNat else 0

/-- np.arange(0, stop, step) as a list: the values k*step for
k = 0 .. arangeCount-1. -/
def arangeQ (stop step : ℚ) : List ℚ :=
  (List.range (arangeCount stop step)).map (fun (k : ℕ) => ((k : ℚ) * step))

/-- Python round() on an exact rational: round half to even. -/
def pyRound (q : ℚ) : ℤ :=
  let f := (⌊q⌋ : ℤ)
  let frac := q - (f : ℚ)
  if frac < 1/2 then f
  else if 1/2 < frac then f + 1
  else if f % 2 = 0 then f else f + 1

/-- Pulse.get_envelope (lines 96-111): none models the guard branch that
prints and returns the scalar 0 (not an array) when the length is callable;
otherwise amplitude * shape over arange(0, length, 1/samplerate)/length. -/
def Pulse.get_envelope (p : Pulse) (samplerate : ℚ) : Option (List ℚ) :=
  let timestep := 1 / samplerate
  match p.length with
  | .varlen _ _ => none
  | .fixed d => some (p.callOn ((arangeQ d timestep).map (fun t => t / d)))

/-- Pulse.get_complex_envelope (lines 113-137).  The homodyne test is the
identity comparison iq_frequency is 0 of line 125.  In the heterodyne branch
the envelope is multiplied by exp(i*(2*pi*f*t - pi/180*phase)) over the
pulse-local grid arange(0, length, timestep), the quadrature is rotated by
(90 - iq_angle) degrees, and the complex dc offset is added. -/
noncomputable def Pulse.get_complex_envelope (p : Pulse) (samplerate : ℚ) :
    Option (List ℂ) :=
  let timestep := 1 / samplerate
  match p.length, p.get_envelope samplerate with
  | .fixed d, some envelope =>
    if p.iq_frequency.isLit0 then
      some (envelope.map (fun x => ((x : ℚ) : ℂ)))
    else
      let time := arangeQ d timestep
      let mixed := List.zipWith
        (fun (e t : ℚ) => ((e : ℚ) : ℂ) *
          Complex.exp (Complex.I *
            ((2 * Real.pi * (p.iq_frequency.val : ℝ) * (t : ℝ) : ℝ) -
              (Real.pi / 180 * (p.phase : ℝ) : ℝ))))
        envelope time
      some (mixed.map (fun w =>
        ((w.re : ℝ) : ℂ) + Complex.I *
          (((w * Complex.exp (Complex.I *
              ((Real.pi / 180 * ((90 : ℝ) - (p.iq_angle : ℝ)) : ℝ)))).im : ℝ) : ℂ) +
          (((p.iq_dc_offset.1 : ℝ) : ℂ) + ((p.iq_dc_offset.2 : ℝ) : ℂ) * Complex.I)))
  | _, _ => none

/-- The argument of Pulse.__init__ standing for the Python length object:
a float, an int, a callable, or anything else. -/
inductive PyLengthArg
  | float (d : ℚ)
  | int (n : ℤ)
  | func (args : List String) (f : (String → ℚ) → ℚ)
  | other

/-- Pulse.__init__ (lines 55-81): accepts a float instance or a callable for
the length and raises ValueError otherwise (so a Python int is rejected). -/
def Pulse.init (length : PyLengthArg) (shape : ShapeFun) (name : PulseName)
    (amplitude phase : ℚ) (iq_frequency : PyNum) (iq_dc_offset : ℚ × ℚ)
    (iq_angle : ℚ) (ptype : PulseType) (pid : ℕ) : Except String Pulse :=
  match length with
  | .float d => .ok ⟨pid, .fixed d, shape, name, amplitude, phase,
      iq_frequency, iq_dc_offset, iq_angle, ptype⟩
  | .func args f => .ok ⟨pid, .varlen args f, shape, name, amplitude, phase,
      iq_frequency, iq_dc_offset, iq_angle, ptype⟩
  | _ => .error "Pulse length is not understood. Only floats and functions returning floats are allowed."

/-- Class PulseSequence state (lines 155-178). -/
structure PulseSequence where
  sequence : List (List Pulse)
  next_parallel : Bool
  pulses : List (String × Pulse)
  varSet : Finset String
  samplerate : Option ℚ
  dc_corr : ℚ

/-- Resolve a pulse length against the call-time keyword arguments
(lines 215-222): a callable is invoked on the matching parameters, a float is
used as is. -/
def resolveLength (kwargs : List (String × ℚ)) : PulseLength → ℚ
  | .fixed d => d
  | .varlen _ f => f (fun k => (kwargs.lookup k).getD 0)

/-- The waveform array rendered for one pulse inside __call__
(lines 234-242): a Pulse-type pulse longer than half a sample period is
sampled from its shape, a shorter one renders as an empty array, and Wait or
Readout pulses render as round(length*samplerate) zeros.  (np.zeros raises on
a negative size; no claim resolves a negative duration and the model clamps
at zero.) -/
def pulseWfm (samplerate : ℚ) (kwargs : List (String × ℚ)) (p : Pulse) :
    List ℚ :=
  let timestep := 1 / samplerate
  let length := resolveLength kwargs p.length
  match p.type with
  | .Pulse =>
    if timestep / 2 < length then
      p.callOn ((arangeQ length timestep).map (fun t => t / length))
    else []
  | _ => List.replicate (pyRound (length * samplerate)).toNat 0

/-- The warning text logged for a sub-sample-length pulse (lines 229-231;
the numeric nanosecond figure of the format string is not modelled). -/
def subSampleWarning (p : Pulse) : String :=
  (match p.name with
    | .str s => s
    | _ => "") ++ "-pulse is shorter than half a sample period and thus is omitted."

/-- The warnings logged while rendering one pulse (lines 229-231): a warning
exactly when the resolved length is nonzero but below half a sample period. -/
def pulseWarnings (samplerate : ℚ) (kwargs : List (String × ℚ)) (p : Pulse) :
    List String :=
  let timestep := 1 / samplerate
  let length := resolveLength kwargs p.length
  if length < timestep / 2 ∧ length ≠ 0 then [subSampleWarning p] else []

/-- Pad a list with zeros on the right up to the given size, i.e.
numpy resize when it only grows the array. -/
def padTo (l : List ℚ) (n : ℕ) : List ℚ :=
  l ++ List.replicate (n - l.length) 0

/-- The accumulator of the inner per-slice loop of __call__: the working
slice buffer, the length of the most recently rendered pulse, the readout
index and the warnings gathered so far. -/
structure SliceAcc where
  wfmSlice : List ℚ
  lastLen : ℕ
  readoutIndex : ℕ
  warnings : List String

/-- One iteration of the inner loop of __call__ (lines 213-270) at slice
start position pos with IQ_mixing False: log a possible sub-sample warning,
render the pulse, record the slice start as readout index for a Readout
pulse, grow the slice buffer to the longest pulse so far and add the
(zero-padded) pulse into it, and remember this pulse's rendered length. -/
def processPulse (samplerate : ℚ) (kwargs : List (String × ℚ)) (pos : ℕ)
    (acc : SliceAcc) (p : Pulse) : SliceAcc :=
  let wfm := pulseWfm samplerate kwargs p
  let slice := if acc.wfmSlice.length < wfm.length
    then padTo acc.wfmSlice wfm.length else acc.wfmSlice
  { wfmSlice := List.zipWith (· + ·) slice (padTo wfm slice.length)
    lastLen := wfm.length
    readoutIndex := if p.type = PulseType.Readout then pos else acc.readoutIndex
    warnings := acc.warnings ++ pulseWarnings samplerate kwargs p }

/-- The accumulator of the outer loop of __call__: the waveform built so far,
the start position of the next slice, the readout index and the warnings. -/
structure SeqAcc where
  fullWaveform : List ℚ
  position : ℕ
  readoutIndex : ℕ
  warnings : List String

/-- The initial outer accumulator of __call__ (lines 206-209). -/
def seqAccInit : SeqAcc := ⟨[], 0, 0, []⟩

/-- One iteration of the outer loop of __call__ (lines 210-280): run the
inner loop over the slice, merge the slice buffer into the full waveform at
the slice start position (growing the waveform as needed), and advance the
position by the length of the last rendered pulse of the slice. -/
def processSlice (samplerate : ℚ) (kwargs : List (String × ℚ)) (acc : SeqAcc)
    (slice : List Pulse) : SeqAcc :=
  let sacc := slice.foldl (processPulse samplerate kwargs acc.position)
    ⟨[], 0, acc.readoutIndex, acc.warnings⟩
  let newLen := max acc.fullWaveform.length (acc.position + sacc.wfmSlice.length)
  let filled := List.replicate acc.position (0 : ℚ) ++ sacc.wfmSlice ++
    List.replicate (newLen - acc.position - sacc.wfmSlice.length) 0
  { fullWaveform := List.zipWith (· + ·) (padTo acc.fullWaveform newLen) filled
    position := acc.position + sacc.lastLen
    readoutIndex := sacc.readoutIndex
    warnings := sacc.warnings }

/-- The reported (logged, non-raising) errors of PulseSequence.__call__. -/
inductive CallError
  | paramMismatch
  | missingSampleRate
  deriving DecidableEq

/-- PulseSequence.__call__ (lines 180-286) at IQ_mixing False (the IQ branch
of lines 251-263 is not entered then; its time grid is embedded separately as
iqMixTime).  The call validates the keyword set against the declared variable
names and the sample rate (None or 0 is falsy), folds the slice loop, adds
the dc correction to every built sample, pads a zero on either side and
returns the waveform with the readout index shifted by the leading zero.
The Python call mutates no sequence state; the embedding is a pure function
of the sequence. -/
def PulseSequence.call (s : PulseSequence) (kwargs : List (String × ℚ)) :
    Except CallError (List ℚ × ℕ × List String) :=
  if s.varSet ≠ (kwargs.map Prod.fst).toFinset then .error .paramMismatch
  else
    match s.samplerate with
    | none => .error .missingSampleRate
    | some r =>
      if r = 0 then .error .missingSampleRate
      else
        let acc := s.sequence.foldl (processSlice r kwargs) seqAccInit
        .ok ((0 : ℚ) :: (acc.fullWaveform.map (· + s.dc_corr)) ++ [0],
          acc.readoutIndex + 1, acc.warnings)

/-- The reported (logged, non-raising) errors of PulseSequence.add. -/
inductive AddError
  | invalidName
  | nameCollision
  deriving DecidableEq

/-- Lines 314-318 of add: a non-parallel pulse opens a fresh slice, a
parallel one joins the last slice. -/
def scheduleInto (seq : List (List Pulse)) (parallel : Bool) (p : Pulse) :
    List (List Pulse) :=
  if parallel then seq.dropLast ++ [(seq.getLast?.getD []) ++ [p]]
  else seq ++ [[p]]

/-- PulseSequence.add (lines 288-323): reject a None or non-string name,
reject a name registered for a different pulse object (identity comparison),
register an unregistered name, union the callable's parameter names into the
variable set, schedule the pulse and store the skip flag for the next call.
The Python method always returns self; here the (possibly unchanged) new
state is returned together with the reported error, if any. -/
def PulseSequence.add (s : PulseSequence) (p : Pulse) (skip : Bool) :
    PulseSequence × Option AddError :=
  match p.name with
  | .str n =>
    match s.pulses.lookup n with
    | some q =>
      if q.pid ≠ p.pid then (s, some .nameCollision)
      else
        ({ s with
            sequence := scheduleInto s.sequence s.next_parallel p
            varSet := s.varSet ∪ p.length.argNames.toFinset
            next_parallel := skip }, none)
    | none =>
      ({ s with
          pulses := s.pulses ++ [(n, p)]
          sequence := scheduleInto s.sequence s.next_parallel p
          varSet := s.varSet ∪ p.length.argNames.toFinset
          next_parallel := skip }, none)
  | _ => (s, some .invalidName)

/-- The IQ carrier time grid the code builds at line 254:
np.arange(position_of_next_slice, len(wfm)) * timestep, where
position_of_next_slice is the running sample position of the current slice
and wfm the rendered pulse. -/
def iqMixTime (position wfmLen : ℕ) (timestep : ℚ) : List ℚ :=
  (List.range' position (wfmLen - position)).map (fun (k : ℕ) => ((k : ℚ) * timestep))

/-- The IQ carrier time grid the specification describes: global sequence
times (position + k) * timestep for k = 0 .. wfmLen - 1, one entry per
rendered sample.  (Modelled from the spec for comparison with iqMixTime.) -/
def iqMixTimeSpec (position wfmLen : ℕ) (timestep : ℚ) : List ℚ :=
  (List.range' position wfmLen).map (fun (k : ℕ) => ((k : ℚ) * timestep))

/-- Concrete 100-sample pulse of the parallel-slice example (PulseA). -/
def pulseA : Pulse :=
  ⟨1, .fixed 100, rectShape, .str "A", 1, 0, .int 0, (0, 0), 90, .Pulse⟩

/-- Concrete 50-sample pulse of the parallel-slice example (PulseB). -/
def pulseB : Pulse :=
  ⟨2, .fixed 50, rectShape, .str "B", 1, 0, .int 0, (0, 0), 90, .Pulse⟩

/-- A 2-sample drive pulse for the readout-index example. -/
def p0W : Pulse :=
  ⟨3, .fixed 2, rectShape, .str "p0", 1, 0, .int 0, (0, 0), 90, .Pulse⟩

/-- A 3-sample drive pulse for the readout-index example. -/
def p1W : Pulse :=
  ⟨4, .fixed 3, rectShape, .str "p1", 1, 0, .int 0, (0, 0), 90, .Pulse⟩

/-- A 1-sample readout placeholder pulse. -/
def pRW : Pulse :=
  ⟨5, .fixed 1, zeroShape, .str "readout", 1, 0, .int 0, (0, 0), 90, .Readout⟩

/-- A three-slice sequence: two drive slices then a readout slice. -/
def sW3 : PulseSequence :=
  ⟨[[p0W], [p1W], [pRW]], false, [("p0", p0W), ("p1", p1W), ("readout", pRW)],
    ∅, some 1, 0⟩

/-- The empty sequence with a given sample rate and dc correction. -/
def emptySeq (r dc : ℚ) : PulseSequence := ⟨[], false, [], ∅, some r, dc⟩

/-- A sequence declaring one variable name, for the parameter-mismatch witness. -/
def sMismatch : PulseSequence := ⟨[], false, [], {"t"}, some 1, 0⟩

/-- A quarter-sample-long pulse (shorter than half a sample period at rate 1). -/
def pShort : Pulse :=
  ⟨6, .fixed (1/4), rectShape, .str "short", 1, 0, .int 0, (0, 0), 90, .Pulse⟩

/-- A sequence holding only the sub-sample pulse. -/
def sC8 : PulseSequence := ⟨[[pShort]], false, [("short", pShort)], ∅, some 1, 0⟩

/-- A pulse of fixed length 3/2 for the sample-count witness. -/
def pulseC7 : Pulse :=
  ⟨8, .fixed (3/2), rectShape, .str "c7", 1, 0, .int 0, (0, 0), 90, .Pulse⟩

/-- A unit rect pulse with phase 90 whose iq_frequency is the float 0.0
(numerically zero but not the int object 0). -/
def pulseC5 : Pulse :=
  ⟨7, .fixed 1, rectShape, .str "drive", 1, 90, .float 0, (0, 0), 90, .Pulse⟩

/-- A registered pulse named a, used for the re-append witness. -/
def pSame : Pulse :=
  ⟨0, .fixed 1, rectShape, .str "a", 1, 0, .int 0, (0, 0), 90, .Pulse⟩

/-- A different pulse object also named a (name collision). -/
def pCollide : Pulse :=
  ⟨1, .fixed 1, rectShape, .str "a", 1, 0, .int 0, (0, 0), 90, .Pulse⟩

/-- A pulse whose name is None. -/
def pNoName : Pulse :=
  ⟨2, .fixed 1, rectShape, .pyNone, 1, 0, .int 0, (0, 0), 90, .Pulse⟩

/-- A sequence with pSame registered and scheduled. -/
def sW9 : PulseSequence := ⟨[[pSame]], false, [("a", pSame)], ∅, some 1, 0⟩

theorem padTo_length (l : List ℚ) (n : ℕ) : (padTo l n).length = max l.length n := by
  simp [padTo]; omega

theorem processPulse_warnings_eq (r : ℚ) (kw : List (String × ℚ)) (pos : ℕ)
    (acc : SliceAcc) (p : Pulse) :
    (processPulse r kw pos acc p).warnings = acc.warnings ++ pulseWarnings r kw p := rfl

theorem processPulse_lastLen_eq (r : ℚ) (kw : List (String × ℚ)) (pos : ℕ)
    (acc : SliceAcc) (p : Pulse) :
    (processPulse r kw pos acc p).lastLen = (pulseWfm r kw p).length := rfl

theorem processPulse_readoutIndex_eq (r : ℚ) (kw : List (String × ℚ)) (pos : ℕ)
    (acc : SliceAcc) (p : Pulse) :
    (processPulse r kw pos acc p).readoutIndex =
      if p.type = PulseType.Readout then pos else acc.readoutIndex := rfl

theorem processPulse_wfmSlice_length (r : ℚ) (kw : List (String × ℚ)) (pos : ℕ)
    (acc : SliceAcc) (p : Pulse) :
    (processPulse r kw pos acc p).wfmSlice.length =
      max acc.wfmSlice.length (pulseWfm r kw p).length := by
  show (List.zipWith _ _ _).length = _
  rw [List.length_zipWith, padTo_length]
  by_cases h : acc.wfmSlice.length < (pulseWfm r kw p).length <;>
    simp [h, padTo_length] <;> omega

theorem processSlice_position_eq (r : ℚ) (kw : List (String × ℚ)) (acc : SeqAcc)
    (slice : List Pulse) :
    (processSlice r kw acc slice).position =
      acc.position + (slice.foldl (processPulse r kw acc.position)
        ⟨[], 0, acc.readoutIndex, acc.warnings⟩).lastLen := rfl

theorem processSlice_readoutIndex_eq (r : ℚ) (kw : List (String × ℚ)) (acc : SeqAcc)
    (slice : List Pulse) :
    (processSlice r kw acc slice).readoutIndex =
      (slice.foldl (processPulse r kw acc.position)
        ⟨[], 0, acc.readoutIndex, acc.warnings⟩).readoutIndex := rfl

theorem processSlice_warnings_eq (r : ℚ) (kw : List (String × ℚ)) (acc : SeqAcc)
    (slice : List Pulse) :
    (processSlice r kw acc slice).warnings =
      (slice.foldl (processPulse r kw acc.position)
        ⟨[], 0, acc.readoutIndex, acc.warnings⟩).warnings := rfl

theorem foldl_processPulse_readout_of_none (r : ℚ) (kw : List (String × ℚ))
    (pos : ℕ) (sl : List Pulse) (h : ∀ p ∈ sl, p.type ≠ PulseType.Readout) :
    ∀ acc : SliceAcc,
      (sl.foldl (processPulse r kw pos) acc).readoutIndex = acc.readoutIndex := by
  induction sl with
  | nil => intro acc; rfl
  | cons q tl ih =>
    intro acc
    rw [List.foldl_cons, ih (fun p hp => h p (List.mem_cons_of_mem q hp)),
      processPulse_readoutIndex_eq, if_neg (h q (List.mem_cons_self q tl))]

theorem foldl_processPulse_readout_of_mem (r : ℚ) (kw : List (String × ℚ))
    (pos : ℕ) (sl : List Pulse) (h : ∃ p ∈ sl, p.type = PulseType.Readout) :
    ∀ acc : SliceAcc,
      (sl.foldl (processPulse r kw pos) acc).readoutIndex = pos := by
  induction sl with
  | nil => rcases h with ⟨p, hp, _⟩; cases hp
  | cons q tl ih =>
    intro acc
    by_cases htl : ∃ p ∈ tl, p.type = PulseType.Readout
    · rw [List.foldl_cons, ih htl]
    · have hq : q.type = PulseType.Readout := by
        rcases h with ⟨p, hp, hr⟩
        rcases List.mem_cons.mp hp with rfl | hmem
        · exact hr
        · exact absurd ⟨p, hmem, hr⟩ htl
      have hnone : ∀ p ∈ tl, p.type ≠ PulseType.Readout := by
        intro p hp
        by_contra hc
        exact htl ⟨p, hp, hc⟩
      rw [List.foldl_cons, foldl_processPulse_readout_of_none r kw pos tl hnone,
        processPulse_readoutIndex_eq, if_pos hq]

theorem foldl_processPulse_warnings_mono (r : ℚ) (kw : List (String × ℚ))
    (pos : ℕ) (sl : List Pulse) :
    ∀ (acc : SliceAcc) (w : String), w ∈ acc.warnings →
      w ∈ (sl.foldl (processPulse r kw pos) acc).warnings := by
  induction sl with
  | nil => intro acc w hw; exact hw
  | cons q tl ih =>
    intro acc w hw
    rw [List.foldl_cons]
    exact ih _ w (by rw [processPulse_warnings_eq]; exact List.mem_append_left _ hw)

theorem foldl_processPulse_warnings_of_mem (r : ℚ) (kw : List (String × ℚ))
    (pos : ℕ) (sl : List Pulse) (p : Pulse) (hp : p ∈ sl) (w : String)
    (hw : w ∈ pulseWarnings r kw p) :
    ∀ acc : SliceAcc, w ∈ (sl.foldl (processPulse r kw pos) acc).warnings := by
  induction sl with
  | nil => cases hp
  | cons q tl ih =>
    intro acc
    rcases List.mem_cons.mp hp with rfl | hmem
    · rw [List.foldl_cons]
      exact foldl_processPulse_warnings_mono r kw pos tl _ w
        (by rw [processPulse_warnings_eq]; exact List.mem_append_right _ hw)
    · rw [List.foldl_cons]
      exact ih hmem _

theorem processSlice_readout_of_none (r : ℚ) (kw : List (String × ℚ))
    (acc : SeqAcc) (sl : List Pulse) (h : ∀ p ∈ sl, p.type ≠ PulseType.Readout) :
    (processSlice r kw acc sl).readoutIndex = acc.readoutIndex := by
  rw [processSlice_readoutIndex_eq, foldl_processPulse_readout_of_none r kw _ sl h]

theorem processSlice_readout_of_mem (r : ℚ) (kw : List (String × ℚ))
    (acc : SeqAcc) (sl : List Pulse) (h : ∃ p ∈ sl, p.type = PulseType.Readout) :
    (processSlice r kw acc sl).readoutIndex = acc.position := by
  rw [processSlice_readoutIndex_eq, foldl_processPulse_readout_of_mem r kw _ sl h]

theorem foldl_processSlice_readout_of_none (r : ℚ) (kw : List (String × ℚ))
    (slices : List (List Pulse))
    (h : ∀ sl ∈ slices, ∀ p ∈ sl, p.type ≠ PulseType.Readout) :
    ∀ acc : SeqAcc,
      (slices.foldl (processSlice r kw) acc).readoutIndex = acc.readoutIndex := by
  induction slices with
  | nil => intro acc; rfl
  | cons sl tl ih =>
    intro acc
    rw [List.foldl_cons, ih (fun s hs => h s (List.mem_cons_of_mem sl hs)),
      processSlice_readout_of_none r kw acc sl (h sl (List.mem_cons_self sl tl))]

theorem processSlice_warnings_mono (r : ℚ) (kw : List (String × ℚ))
    (acc : SeqAcc) (sl : List Pulse) (w : String) (hw : w ∈ acc.warnings) :
    w ∈ (processSlice r kw acc sl).warnings := by
  rw [processSlice_warnings_eq]
  exact foldl_processPulse_warnings_mono r kw _ sl _ w hw

theorem foldl_processSlice_warnings_mono (r : ℚ) (kw : List (String × ℚ))
    (slices : List (List Pulse)) :
    ∀ (acc : SeqAcc) (w : String), w ∈ acc.warnings →
      w ∈ (slices.foldl (processSlice r kw) acc).warnings := by
  induction slices with
  | nil => intro acc w hw; exact hw
  | cons sl tl ih =>
    intro acc w hw
    rw [List.foldl_cons]
    exact ih _ w (processSlice_warnings_mono r kw acc sl w hw)

theorem foldl_processSlice_warnings_of_mem (r : ℚ) (kw : List (String × ℚ))
    (slices : List (List Pulse)) (sl : List Pulse) (hsl : sl ∈ slices)
    (p : Pulse) (hp : p ∈ sl) (w : String) (hw : w ∈ pulseWarnings r kw p) :
    ∀ acc : SeqAcc, w ∈ (slices.foldl (processSlice r kw) acc).warnings := by
  induction slices with
  | nil => cases hsl
  | cons s0 tl ih =>
    intro acc
    rcases List.mem_cons.mp hsl with rfl | hmem
    · rw [List.foldl_cons]
      refine foldl_processSlice_warnings_mono r kw tl _ w ?_
      rw [processSlice_warnings_eq]
      exact foldl_processPulse_warnings_of_mem r kw _ sl p hp w hw _
    · rw [List.foldl_cons]
      exact ih hmem _

theorem call_unfold (s : PulseSequence) (kwargs : List (String × ℚ)) (r : ℚ)
    (hv : s.varSet = (kwargs.map Prod.fst).toFinset)
    (hr : s.samplerate = some r) (hr0 : r ≠ 0) :
    s.call kwargs = .ok
      ((0 : ℚ) :: ((s.sequence.foldl (processSlice r kwargs) seqAccInit).fullWaveform.map
          (· + s.dc_corr)) ++ [0],
        (s.sequence.foldl (processSlice r kwargs) seqAccInit).readoutIndex + 1,
        (s.sequence.foldl (processSlice r kwargs) seqAccInit).warnings) := by
  unfold PulseSequence.call
  rw [if_neg (by simp [hv]), hr]
  simp [hr0]

theorem flatten_scheduleInto (seq : List (List Pulse)) (parallel : Bool) (p : Pulse) :
    (scheduleInto seq parallel p).flatten = seq.flatten ++ [p] := by
  unfold scheduleInto
  cases parallel with
  | false => simp
  | true =>
    rcases eq_or_ne seq [] with rfl | h
    · simp
    · rw [if_pos rfl, List.getLast?_eq_getLast seq h, Option.getD_some]
      conv_rhs => rw [← List.dropLast_append_getLast h]
      simp

theorem pyRound_small (q : ℚ) (h0 : 0 ≤ q) (h : q < 1/2) : pyRound q = 0 := by
  unfold pyRound
  have hf : ⌊q⌋ = 0 := by
    rw [Int.floor_eq_zero_iff]
    exact ⟨h0, lt_trans h (by norm_num)⟩
  rw [hf]
  rw [if_pos (by push_cast; linarith)]

theorem pulseWfm_short (r : ℚ) (kw : List (String × ℚ)) (p : Pulse) (hr : 0 < r)
    (h0 : 0 < resolveLength kw p.length)
    (hs : resolveLength kw p.length < 1 / r / 2) :
    pulseWfm r kw p = [] := by
  have hts : ¬ (r⁻¹ / 2 < resolveLength kw p.length) := by
    rw [inv_eq_one_div]
    linarith
  have hround : pyRound (resolveLength kw p.length * r) = 0 := by
    refine pyRound_small _ (le_of_lt (mul_pos h0 hr)) ?_
    have h1 := mul_lt_mul_of_pos_right hs hr
    have hrr : 1 / r / 2 * r = 1 / 2 := by
      field_simp
    linarith
  simp only [pulseWfm]
  cases htype : p.type
  · simp [hts]
  · simp [hround]
  · simp [hround]

theorem pulseWarnings_short (r : ℚ) (kw : List (String × ℚ)) (p : Pulse)
    (h0 : 0 < resolveLength kw p.length)
    (hs : resolveLength kw p.length < 1 / r / 2) :
    pulseWarnings r kw p = [subSampleWarning p] := by
  unfold pulseWarnings
  rw [if_pos ⟨hs, ne_of_gt h0⟩]

theorem arangeCount_pos (stop step : ℚ) (h1 : 0 < stop) (h2 : 0 < step) :
    arangeCount stop step = (Int.ceil (stop / step)).toNat := by
  unfold arangeCount
  rw [if_pos ⟨h1, h2⟩]

theorem processSlice_singleton_position (r : ℚ) (kw : List (String × ℚ))
    (acc : SeqAcc) (p : Pulse) :
    (processSlice r kw acc [p]).position = acc.position + (pulseWfm r kw p).length := rfl

theorem processSlice_singleton_readout (r : ℚ) (kw : List (String × ℚ))
    (acc : SeqAcc) (p : Pulse) :
    (processSlice r kw acc [p]).readoutIndex =
      if p.type = PulseType.Readout then acc.position else acc.readoutIndex := rfl

theorem processSlice_position_append (r : ℚ) (kw : List (String × ℚ))
    (acc : SeqAcc) (ps : List Pulse) (p : Pulse) :
    (processSlice r kw acc (ps ++ [p])).position =
      acc.position + (pulseWfm r kw p).length := by
  rw [processSlice_position_eq, List.foldl_append]
  rfl

theorem processSlice_fullWaveform_length (r : ℚ) (kw : List (String × ℚ))
    (acc : SeqAcc) (slice : List Pulse) :
    (processSlice r kw acc slice).fullWaveform.length =
      max acc.fullWaveform.length (acc.position +
        (slice.foldl (processPulse r kw acc.position)
          ⟨[], 0, acc.readoutIndex, acc.warnings⟩).wfmSlice.length) := by
  show (List.zipWith _ _ _).length = _
  rw [List.length_zipWith, padTo_length]
  simp only [List.length_append, List.length_replicate]
  omega

theorem arangeQ_length (stop step : ℚ) :
    (arangeQ stop step).length = arangeCount stop step := by
  simp [arangeQ]

theorem pulseWfm_fixed_length (r : ℚ) (kw : List (String × ℚ)) (p : Pulse) (d : ℚ)
    (hp : p.type = PulseType.Pulse) (hl : p.length = PulseLength.fixed d)
    (h : 1 / r / 2 < d) (hd : 0 < d) (hr : 0 < r) :
    (pulseWfm r kw p).length = (Int.ceil (d * r)).toNat := by
  have hcall : ∀ (l : List ℚ) (g : ℚ → ℚ), (p.callOn (l.map g)).length = l.length := by
    intro l g
    simp [Pulse.callOn]
  simp only [pulseWfm, hp, hl, resolveLength]
  rw [if_pos h, hcall, arangeQ_length, arangeCount_pos d (1 / r) hd (by positivity),
    show d / (1 / r) = d * r by field_simp]

theorem pulseWfm_pulseA_length : (pulseWfm 1 [] pulseA).length = 100 := by
  rw [pulseWfm_fixed_length 1 [] pulseA 100 rfl rfl (by norm_num) (by norm_num)
    (by norm_num)]
  norm_num
  decide

theorem pulseWfm_pulseB_length : (pulseWfm 1 [] pulseB).length = 50 := by
  rw [pulseWfm_fixed_length 1 [] pulseB 50 rfl rfl (by norm_num) (by norm_num)
    (by norm_num)]
  norm_num
  decide

/-- C1: the claim says that with IQ mixing enabled the complex carrier of a
pulse with nonzero iq_frequency is evaluated on the global time grid
(position_of_next_slice + k) * timestep with exactly one entry per rendered
sample.  The code instead builds np.arange(position_of_next_slice, len(wfm)),
whose entry count is len(wfm) - position_of_next_slice: at slice start
position 2 with a 3-sample pulse the code grid is the single time 2*timestep
while the claimed grid is 2, 3, 4 times timestep.  The grids agree only when
the slice starts at position 0. -/
theorem iq_global_time_grid_code_eval :
    iqMixTime 2 3 1 = [2] ∧
    iqMixTimeSpec 2 3 1 = [2, 3, 4] ∧
    (iqMixTime 2 3 1).length = 1 ∧
    (∀ position wfmLen : ℕ, ∀ timestep : ℚ,
      (iqMixTime position wfmLen timestep).length = wfmLen - position) ∧
    (∀ position wfmLen : ℕ, ∀ timestep : ℚ,
      (iqMixTimeSpec position wfmLen timestep).length = wfmLen) := by
  refine ⟨?_, ?_, ?_, ?_, ?_⟩
  · unfold iqMixTime
    rw [show List.range' 2 (3 - 2) = [2] from rfl, List.map_cons, List.map_nil]
    norm_num
  · unfold iqMixTimeSpec
    rw [show List.range' 2 3 = [2, 3, 4] from rfl]
    simp only [List.map_cons, List.map_nil]
    norm_num
  · unfold iqMixTime
    rw [List.length_map, List.length_range']
  · intro position wfmLen timestep
    unfold iqMixTime
    rw [List.length_map, List.length_range']
  · intro position wfmLen timestep
    unfold iqMixTimeSpec
    rw [List.length_map, List.length_range']

/-- C2: after processing a slice, the engine advances position_of_next_slice
by the rendered length of the pulse appended last to the slice; for the
example slice of a 100-sample pulse followed by a parallel 50-sample pulse
the cursor advances by 50 although the merged slice buffer (and hence the
built waveform) is 100 samples long. -/
theorem slice_cursor_advances_by_last_pulse :
    (∀ (r : ℚ) (kwargs : List (String × ℚ)) (acc : SeqAcc) (ps : List Pulse)
        (p : Pulse),
        (processSlice r kwargs acc (ps ++ [p])).position =
          acc.position + (pulseWfm r kwargs p).length) ∧
    (processSlice 1 [] seqAccInit [pulseA, pulseB]).position = 50 ∧
    (processSlice 1 [] seqAccInit [pulseA, pulseB]).fullWaveform.length = 100 := by
  refine ⟨processSlice_position_append, ?_, ?_⟩
  · have h := processSlice_position_append 1 [] seqAccInit [pulseA] pulseB
    simpa [seqAccInit, pulseWfm_pulseB_length] using h
  · rw [processSlice_fullWaveform_length]
    rw [List.foldl_cons, List.foldl_cons, List.foldl_nil,
      processPulse_wfmSlice_length, processPulse_wfmSlice_length]
    simp [seqAccInit, pulseWfm_pulseA_length, pulseWfm_pulseB_length]

/-- C4: evaluating a sequence with a keyword set different from the declared
variable-name set reports the parameter mismatch and produces no waveform
(the embedded call, a pure function of the sequence, returns the error and
no result). -/
theorem param_mismatch_no_waveform (s : PulseSequence)
    (kwargs : List (String × ℚ))
    (h : s.varSet ≠ (kwargs.map Prod.fst).toFinset) :
    s.call kwargs = .error CallError.paramMismatch := by
  unfold PulseSequence.call
  rw [if_pos h]

theorem param_mismatch_no_waveform_witness :
    sMismatch.call [] = .error CallError.paramMismatch :=
  param_mismatch_no_waveform sMismatch [] (by decide)

/-- C6 counterexample: the claim says an empty sequence evaluates to a
two-sample waveform whose every sample equals dc_correction; with
dc_correction 1 the code returns the all-zero two-sample waveform, because
the dc correction is added to the still-empty interior before the boundary
zeros are appended. -/
theorem empty_sequence_dc_counterexample :
    (emptySeq 1 1).call [] = .ok ([0, 0], 1, []) ∧
    ¬ (∀ x ∈ [(0 : ℚ), 0], x = (emptySeq 1 1).dc_corr) := by
  constructor
  · rw [call_unfold (emptySeq 1 1) [] 1 rfl rfl (by norm_num)]
    rfl
  · intro h
    have := h 0 (by simp)
    norm_num [emptySeq] at this

/-- C6 as amended: an empty sequence with a set, nonzero sample rate and the
empty parameter set evaluates, for every dc_correction value, to the
two-sample all-zero waveform (the dc correction is added to the empty
interior and so never appears) with readout position 1. -/
theorem empty_sequence_two_zero_samples (r dc : ℚ) (hr : r ≠ 0) :
    (emptySeq r dc).call [] = .ok ([0, 0], 1, []) := by
  rw [call_unfold (emptySeq r dc) [] r rfl rfl hr]
  rfl

theorem empty_sequence_two_zero_samples_witness :
    (emptySeq 2 5).call [] = .ok ([0, 0], 1, []) :=
  empty_sequence_two_zero_samples 2 5 (by norm_num)

/-- C10: Pulse.__init__ raises ValueError for a length that is neither a
float instance nor callable; in particular every int length is rejected,
while float and callable lengths are accepted. -/
theorem pulse_init_rejects_int_length :
    (∀ (n : ℤ) (shape : ShapeFun) (name : PulseName) (amplitude phase : ℚ)
        (iqf : PyNum) (iqdc : ℚ × ℚ) (iqa : ℚ) (ptype : PulseType) (pid : ℕ),
        Pulse.init (PyLengthArg.int n) shape name amplitude phase iqf iqdc iqa
          ptype pid = Except.error
          "Pulse length is not understood. Only floats and functions returning floats are allowed.") ∧
    (∀ (shape : ShapeFun) (name : PulseName) (amplitude phase : ℚ)
        (iqf : PyNum) (iqdc : ℚ × ℚ) (iqa : ℚ) (ptype : PulseType) (pid : ℕ),
        Pulse.init PyLengthArg.other shape name amplitude phase iqf iqdc iqa
          ptype pid = Except.error
          "Pulse length is not understood. Only floats and functions returning floats are allowed.") ∧
    (∀ (d : ℚ) (shape : ShapeFun) (name : PulseName) (amplitude phase : ℚ)
        (iqf : PyNum) (iqdc : ℚ × ℚ) (iqa : ℚ) (ptype : PulseType) (pid : ℕ),
        ∃ pl, Pulse.init (PyLengthArg.float d) shape name amplitude phase iqf
          iqdc iqa ptype pid = Except.ok pl) ∧
    (∀ (args : List String) (f : (String → ℚ) → ℚ) (shape : ShapeFun)
        (name : PulseName) (amplitude phase : ℚ) (iqf : PyNum) (iqdc : ℚ × ℚ)
        (iqa : ℚ) (ptype : PulseType) (pid : ℕ),
        ∃ pl, Pulse.init (PyLengthArg.func args f) shape name amplitude phase
          iqf iqdc iqa ptype pid = Except.ok pl) :=
  ⟨fun _ _ _ _ _ _ _ _ _ _ => rfl,
   fun _ _ _ _ _ _ _ _ _ => rfl,
   fun _ _ _ _ _ _ _ _ _ _ => ⟨_, rfl⟩,
   fun _ _ _ _ _ _ _ _ _ _ _ => ⟨_, rfl⟩⟩

/-- C3: for a sequence of two non-parallel non-readout slices of rendered
lengths L0 and L1 followed by a slice holding the readout pulse (and any
further readout-free slices), evaluation returns readout index L0 + L1 + 1
(slice start offset plus one for the prepended zero); and for a sequence
with no readout pulse at all the returned index is 1. -/
theorem readout_index_after_two_slices :
    (∀ (s : PulseSequence) (p0 p1 : Pulse) (sl2 : List Pulse)
        (rest : List (List Pulse)) (r : ℚ) (kwargs : List (String × ℚ)),
        s.sequence = [p0] :: [p1] :: sl2 :: rest →
        s.varSet = (kwargs.map Prod.fst).toFinset →
        s.samplerate = some r → r ≠ 0 →
        p0.type ≠ PulseType.Readout → p1.type ≠ PulseType.Readout →
        (∃ p ∈ sl2, p.type = PulseType.Readout) →
        (∀ sl ∈ rest, ∀ p ∈ sl, p.type ≠ PulseType.Readout) →
        ∃ wfm warns, s.call kwargs = .ok (wfm,
          (pulseWfm r kwargs p0).length + (pulseWfm r kwargs p1).length + 1,
          warns)) ∧
    (∀ (s : PulseSequence) (r : ℚ) (kwargs : List (String × ℚ)),
        s.varSet = (kwargs.map Prod.fst).toFinset →
        s.samplerate = some r → r ≠ 0 →
        (∀ sl ∈ s.sequence, ∀ p ∈ sl, p.type ≠ PulseType.Readout) →
        ∃ wfm warns, s.call kwargs = .ok (wfm, 1, warns)) := by
  constructor
  · intro s p0 p1 sl2 rest r kwargs hseq hv hr hr0 h0 h1 h2 hrest
    have hfold : (s.sequence.foldl (processSlice r kwargs) seqAccInit).readoutIndex =
        (pulseWfm r kwargs p0).length + (pulseWfm r kwargs p1).length := by
      rw [hseq, List.foldl_cons, List.foldl_cons, List.foldl_cons,
        foldl_processSlice_readout_of_none r kwargs rest hrest,
        processSlice_readout_of_mem r kwargs _ sl2 h2,
        processSlice_singleton_position, processSlice_singleton_position]
      simp [seqAccInit]
    refine ⟨(0 : ℚ) :: ((s.sequence.foldl (processSlice r kwargs)
        seqAccInit).fullWaveform.map (· + s.dc_corr)) ++ [0],
      (s.sequence.foldl (processSlice r kwargs) seqAccInit).warnings, ?_⟩
    rw [call_unfold s kwargs r hv hr hr0, hfold]
  · intro s r kwargs hv hr hr0 hnone
    have hfold : (s.sequence.foldl (processSlice r kwargs) seqAccInit).readoutIndex = 0 := by
      rw [foldl_processSlice_readout_of_none r kwargs s.sequence hnone]
      rfl
    refine ⟨(0 : ℚ) :: ((s.sequence.foldl (processSlice r kwargs)
        seqAccInit).fullWaveform.map (· + s.dc_corr)) ++ [0],
      (s.sequence.foldl (processSlice r kwargs) seqAccInit).warnings, ?_⟩
    rw [call_unfold s kwargs r hv hr hr0, hfold]

theorem readout_index_after_two_slices_witness :
    ∃ wfm warns, sW3.call [] = .ok (wfm,
      (pulseWfm 1 [] p0W).length + (pulseWfm 1 [] p1W).length + 1, warns) :=
  readout_index_after_two_slices.1 sW3 p0W p1W [pRW] [] 1 [] rfl rfl rfl
    (by norm_num) (by decide) (by decide) ⟨pRW, by simp, rfl⟩ (by simp)

/-- C7: for a pulse with fixed duration d and positive sample rate r,
get_envelope returns an array whose sample count differs from floor(d*r) by
at most one (the exact count is ceil(d*r)). -/
theorem render_real_sample_count (p : Pulse) (d samplerate : ℚ)
    (hl : p.length = PulseLength.fixed d) (hd : 0 ≤ d) (hr : 0 < samplerate) :
    ∃ env, p.get_envelope samplerate = some env ∧
      ((env.length : ℤ) - ⌊d * samplerate⌋).natAbs ≤ 1 := by
  have hcall : ∀ (l : List ℚ) (g : ℚ → ℚ), (p.callOn (l.map g)).length = l.length := by
    intro l g
    simp [Pulse.callOn]
  refine ⟨p.callOn ((arangeQ d (1 / samplerate)).map (fun t => t / d)),
    by simp only [Pulse.get_envelope, hl], ?_⟩
  rw [hcall, arangeQ_length]
  rcases eq_or_lt_of_le hd with h | h
  · rw [← h]
    norm_num [arangeCount]
  · rw [arangeCount_pos d (1 / samplerate) h (by positivity),
      show d / (1 / samplerate) = d * samplerate by field_simp]
    have h1 : ⌊d * samplerate⌋ ≤ ⌈d * samplerate⌉ := Int.floor_le_ceil _
    have h2 : ⌈d * samplerate⌉ ≤ ⌊d * samplerate⌋ + 1 := Int.ceil_le_floor_add_one _
    have h3 : (0 : ℤ) ≤ ⌈d * samplerate⌉ := Int.ceil_nonneg (by positivity)
    rw [Int.toNat_of_nonneg h3]
    omega

theorem render_real_sample_count_witness :
    ∃ env, pulseC7.get_envelope 2 = some env ∧
      ((env.length : ℤ) - ⌊(3 / 2 : ℚ) * 2⌋).natAbs ≤ 1 :=
  render_real_sample_count pulseC7 (3 / 2) 2 rfl (by norm_num) (by norm_num)

/-- C8: under a valid call (matching parameter set, positive sample rate)
the evaluation always returns a waveform, and every pulse whose resolved
duration is nonzero but below half a sample period renders as the empty
array (contributing no samples) while its warning appears among the
reported warnings. -/
theorem subsample_pulse_dropped_with_warning (s : PulseSequence) (r : ℚ)
    (kwargs : List (String × ℚ))
    (hv : s.varSet = (kwargs.map Prod.fst).toFinset)
    (hr : s.samplerate = some r) (hrpos : 0 < r) :
    ∃ wfm idx warns, s.call kwargs = .ok (wfm, idx, warns) ∧
      ∀ sl ∈ s.sequence, ∀ p ∈ sl,
        0 < resolveLength kwargs p.length →
        resolveLength kwargs p.length < 1 / r / 2 →
        pulseWfm r kwargs p = [] ∧ subSampleWarning p ∈ warns := by
  refine ⟨_, _, _, call_unfold s kwargs r hv hr (ne_of_gt hrpos), ?_⟩
  intro sl hsl p hp h0 hs
  refine ⟨pulseWfm_short r kwargs p hrpos h0 hs, ?_⟩
  refine foldl_processSlice_warnings_of_mem r kwargs s.sequence sl hsl p hp
    (subSampleWarning p) ?_ seqAccInit
  rw [pulseWarnings_short r kwargs p h0 hs]
  exact List.mem_singleton.mpr rfl

theorem subsample_pulse_dropped_with_warning_witness :
    ∃ wfm idx warns, sC8.call [] = .ok (wfm, idx, warns) ∧
      ∀ sl ∈ sC8.sequence, ∀ p ∈ sl,
        0 < resolveLength [] p.length →
        resolveLength [] p.length < 1 / 1 / 2 →
        pulseWfm 1 [] p = [] ∧ subSampleWarning p ∈ warns :=
  subsample_pulse_dropped_with_warning sC8 1 [] rfl rfl (by norm_num)

/-- C9: add with a None or non-string name, or with a name registered for a
different pulse object, reports the error and returns the sequence state
unchanged; re-adding the exact pulse object already registered under its
name is no error, leaves the name registry unchanged and schedules the
pulse again in the slice list. -/
theorem add_invalid_name_and_reappend :
    (∀ (s : PulseSequence) (p : Pulse) (skip : Bool),
        p.name = PulseName.pyNone ∨ p.name = PulseName.notStr →
        s.add p skip = (s, some AddError.invalidName)) ∧
    (∀ (s : PulseSequence) (p q : Pulse) (n : String) (skip : Bool),
        p.name = PulseName.str n → s.pulses.lookup n = some q →
        q.pid ≠ p.pid →
        s.add p skip = (s, some AddError.nameCollision)) ∧
    (∀ (s : PulseSequence) (p : Pulse) (n : String) (skip : Bool),
        p.name = PulseName.str n → s.pulses.lookup n = some p →
        (s.add p skip).2 = none ∧
        (s.add p skip).1.pulses = s.pulses ∧
        (s.add p skip).1.sequence.flatten = s.sequence.flatten ++ [p]) := by
  refine ⟨?_, ?_, ?_⟩
  · rintro s p skip (h | h) <;> simp [PulseSequence.add, h]
  · intro s p q n skip hn hl hpid
    simp [PulseSequence.add, hn, hl, hpid]
  · intro s p n skip hn hl
    simp [PulseSequence.add, hn, hl, flatten_scheduleInto]

theorem add_invalid_name_and_reappend_witness :
    sW9.add pNoName false = (sW9, some AddError.invalidName) ∧
    sW9.add pCollide false = (sW9, some AddError.nameCollision) ∧
    ((sW9.add pSame true).2 = none ∧
     (sW9.add pSame true).1.pulses = sW9.pulses ∧
     (sW9.add pSame true).1.sequence.flatten = sW9.sequence.flatten ++ [pSame]) :=
  ⟨add_invalid_name_and_reappend.1 sW9 pNoName false (Or.inl rfl),
   add_invalid_name_and_reappend.2.1 sW9 pCollide pSame "a" false rfl rfl
     (by decide),
   add_invalid_name_and_reappend.2.2 sW9 pSame "a" true rfl rfl⟩

theorem arangeQ_one : arangeQ 1 ((1:ℚ)/1) = [0] := by
  rw [arangeQ, arangeCount_pos 1 ((1:ℚ)/1) (by norm_num) (by norm_num)]
  norm_num [show List.range 1 = [0] from rfl]

theorem pulseC5_envelope : pulseC5.get_envelope 1 = some [1] := by
  simp only [Pulse.get_envelope, pulseC5]
  rw [show (1 : ℚ) / 1 = 1 / 1 from rfl, arangeQ_one]
  simp [Pulse.callOn, rectShape]

theorem exp_I_mul_neg_pi_div_two :
    Complex.exp (Complex.I * (((0:ℝ):ℂ) - ((Real.pi/2 : ℝ):ℂ))) = -Complex.I := by
  have h : Complex.I * (((0:ℝ):ℂ) - ((Real.pi/2 : ℝ):ℂ)) =
      ((-(Real.pi/2) : ℝ) : ℂ) * Complex.I := by
    push_cast
    ring
  rw [h, Complex.exp_mul_I, ← Complex.ofReal_cos, ← Complex.ofReal_sin,
    Real.cos_neg, Real.sin_neg, Real.cos_pi_div_two, Real.sin_pi_div_two]
  push_cast
  ring

theorem pulseC5_complex_value : pulseC5.get_complex_envelope 1 = some [-Complex.I] := by
  simp only [Pulse.get_complex_envelope, pulseC5_envelope,
    show pulseC5.length = PulseLength.fixed 1 from rfl,
    show pulseC5.iq_frequency.isLit0 = false from rfl,
    Bool.false_eq_true, if_false, arangeQ_one,
    List.zipWith_cons_cons, List.zipWith_nil_right, List.map_cons, List.map_nil]
  rw [show (pulseC5.iq_frequency.val : ℚ) = 0 from rfl,
    show (pulseC5.phase : ℚ) = 90 from rfl,
    show (pulseC5.iq_angle : ℚ) = 90 from rfl,
    show (pulseC5.iq_dc_offset.1 : ℚ) = 0 from rfl,
    show (pulseC5.iq_dc_offset.2 : ℚ) = 0 from rfl,
    show (2 * Real.pi * (((0:ℚ)) : ℝ) * (((0:ℚ)) : ℝ)) = 0 by push_cast; ring,
    show (Real.pi / 180 * (((90:ℚ)) : ℝ)) = Real.pi / 2 by push_cast; ring,
    show (Real.pi / 180 * ((90:ℝ) - (((90:ℚ)) : ℝ))) = 0 by push_cast; ring,
    exp_I_mul_neg_pi_div_two,
    show Complex.exp (Complex.I * (((0:ℝ)):ℂ)) = 1 by
      rw [Complex.ofReal_zero, mul_zero, Complex.exp_zero]]
  push_cast
  simp [Complex.ext_iff]

/-- C5: the claim says a pulse with fixed duration and iq_frequency equal to
0 renders exactly the same array from get_complex_envelope as from
get_envelope.  The code tests object identity (iq_frequency is 0, line 125),
which the float 0.0 fails although 0.0 == 0: pulseC5 has iq_frequency 0.0
(numerically zero, per the first conjunct) and phase 90; its real envelope is
the one-sample array 1.0, yet get_complex_envelope takes the heterodyne
branch (second conjunct) and returns the array -1j, a different array with a
nonzero imaginary component. -/
theorem homodyne_float_zero_code_eval :
    pulseC5.iq_frequency.val = 0 ∧
    pulseC5.iq_frequency.isLit0 = false ∧
    pulseC5.get_envelope 1 = some [1] ∧
    pulseC5.get_complex_envelope 1 = some [-Complex.I] ∧
    (-Complex.I : ℂ) ≠ ((1 : ℚ) : ℂ) :=
  ⟨rfl, rfl, pulseC5_envelope, pulseC5_complex_value, by
    norm_num [Complex.ext_iff]⟩
